import Mathlib

/-!
Shallow embedding of the feed-health CRE workflow, from the two source
variants `src/my-workflow/main.ts` and `src/unnamed/part_000`.

Both variants run the same pipeline inside `onCronTrigger`:
validate the config with a zod schema, resolve the network, dispatch three
contract reads (`description`, `decimals`, `latestRoundData`) pinned to the
last-finalized block, decode the results, compute price and staleness,
classify a status, log a report (including `toISOString` on the update
date), and return a one-line summary string.

Numeric model: JavaScript numbers are IEEE-754 doubles.  We model finite
doubles by exact rationals and carry the non-finite values (`NaN`, the two
infinities) explicitly in the type `JSNum`, with JS comparison semantics
(every `<` comparison involving NaN is false).  The conversion
`Number(bigint)` rounds to the nearest double (ties to even); since every
double of magnitude at least 2^53 is an integer, the conversion of an
integer is again an integer, and we model it exactly by `jsNumberOfNat` /
`jsNumberOfInt`.  The subsequent float divisions and multiplications are
idealized as exact rational arithmetic; every concrete input used in a
counterexample below is chosen so that these steps are also exact in
doubles (division by `10 ^ 0 = 1`, products and quotients that are exactly
representable), so the counterexamples are faithful to the source.
-/

/-- A ceiling on the bit length of every integer the workflow converts with
`Number(...)`: `updatedAt` is a `uint256` and `answer` an `int256`, so 320
bits of fuel always suffice. -/
def bitFuel : Nat := 320

/-- Fuel-driven bit length: `bitsAux fuel n` is the number of binary digits
of `n` as long as `n < 2 ^ fuel`. -/
def bitsAux : Nat → Nat → Nat
  | 0, _ => 0
  | fuel + 1, n => if n = 0 then 0 else bitsAux fuel (n / 2) + 1

/-- Bit length of an integer below `2 ^ bitFuel`. -/
def bitLen (n : Nat) : Nat := bitsAux bitFuel n

/-- `Number(n)` for a natural `n`: round to the nearest IEEE-754 double,
ties to even.  Every natural up to `2 ^ 53` is exactly representable; above
that, doubles of bit length `b` are spaced `2 ^ (b - 53)` apart, and the
result is again an integer, returned here exactly. -/
def jsNumberOfNat (n : Nat) : Nat :=
  if n ≤ 2 ^ 53 then n
  else
    let e := bitLen n - 53
    let q := n / 2 ^ e
    let r := n % 2 ^ e
    let half := 2 ^ (e - 1)
    if half < r || (r = half && q % 2 = 1) then (q + 1) * 2 ^ e else q * 2 ^ e

/-- `Number(i)` for a signed integer: the conversion is symmetric in sign. -/
def jsNumberOfInt (i : Int) : Int :=
  if i < 0 then -(jsNumberOfNat i.natAbs) else jsNumberOfNat i.natAbs

/-- A JavaScript number: NaN, one of the infinities, or a finite value
(modelled by an exact rational). -/
inductive JSNum where
  | nan : JSNum
  | posInf : JSNum
  | negInf : JSNum
  | fin (q : ℚ) : JSNum
deriving DecidableEq, Repr

/-- The JS `<` comparison: any comparison involving NaN is false. -/
def jsLt : JSNum → JSNum → Bool
  | .nan, _ => false
  | _, .nan => false
  | .negInf, .negInf => false
  | .negInf, _ => true
  | .posInf, _ => false
  | .fin _, .posInf => true
  | .fin _, .negInf => false
  | .fin a, .fin b => decide (a < b)

/-- The JS product `x * 3` (`threshold * 3` in both sources). -/
def jsMul3 : JSNum → JSNum
  | .nan => .nan
  | .posInf => .posInf
  | .negInf => .negInf
  | .fin q => .fin (q * 3)

/-- JS subtraction `a - x` with `a` finite (`now` minus the update time;
the update time is NaN exactly when the `Date` is invalid). -/
def jsSubFin (a : ℚ) : JSNum → JSNum
  | .nan => .nan
  | .posInf => .negInf
  | .negInf => .posInf
  | .fin b => .fin (a - b)

/-- JS division `x / 60000` (milliseconds to minutes). -/
def jsDiv60000 : JSNum → JSNum
  | .nan => .nan
  | .posInf => .posInf
  | .negInf => .negInf
  | .fin q => .fin (q / 60000)

/-- The status classification shared verbatim by both sources
(`main.ts` lines 174-181 as an if/else chain, `part_000` lines 124-125 as a
nested conditional expression):
`stalenessMinutes < threshold` gives OK, else
`stalenessMinutes < threshold * 3` gives WARN, else FAIL. -/
def classifyStatus (stalenessMinutes threshold : JSNum) : String :=
  if jsLt stalenessMinutes threshold then "OK"
  else if jsLt stalenessMinutes (jsMul3 threshold) then "WARN"
  else "FAIL"

/-- The computed price, `Number(answer) / 10 ** decimals`
(`main.ts` line 167 uses `Math.pow(10, decimals)`, `part_000` line 119 uses
`10 ** decimals`; both denote the same power).  The bigint-to-double
conversion of `answer` is modelled exactly.  The power and the division,
which in the program are double operations that may round again (already
`1 / 10` has no exact double), are idealized here as exact rational
arithmetic.  Accordingly, exactness facts about the program are asserted
through `priceOf` only at parameters where those two steps are exact in
doubles — the concrete scenarios in this file use such parameters, and
the general exactness statement below is confined to `decimals = 0`,
where the power is `1` and division by it is exact. -/
def priceOf (answer : Int) (decimals : Nat) : ℚ :=
  (jsNumberOfInt answer : ℚ) / 10 ^ decimals

/-- Modelled from the spec: "price = answer / 10^decimals" by exact decimal
division, for comparison with the computed `priceOf`. -/
def priceSpec (answer : Int) (decimals : Nat) : ℚ :=
  (answer : ℚ) / 10 ^ decimals

/-- Maximal magnitude of a valid JS `Date` time value, in milliseconds
(8.64e15); a larger time value makes the `Date` invalid, so `getTime()`
returns NaN and `toISOString()` throws a RangeError. -/
def maxDateMs : Nat := 8640000000000000

/-- Left-pad a digit string with zeros to width `w`. -/
def padZeros (s : String) (w : Nat) : String :=
  String.mk (List.replicate (w - s.length) '0') ++ s

/-- `Number.prototype.toFixed` on a finite value of magnitude below 10^21
(beyond which JS switches to exponential notation; every value formatted in
this development is far below that): emit the sign of `x`, then round
`|x| * 10 ^ digits` to the nearest integer, half away from zero, and render
it with `digits` digits after the point. -/
def toFixed (x : ℚ) (digits : Nat) : String :=
  let n : Nat := (⌊|x| * 10 ^ digits + 1 / 2⌋).toNat
  let sign := if x < 0 then "-" else ""
  let ip := n / 10 ^ digits
  let fp := n % 10 ^ digits
  if digits = 0 then sign ++ toString ip
  else sign ++ toString ip ++ "." ++ padZeros (toString fp) digits

/-- `toFixed` extended to the non-finite doubles, matching JS rendering. -/
def jsToFixed (x : JSNum) (digits : Nat) : String :=
  match x with
  | .nan => "NaN"
  | .posInf => "Infinity"
  | .negInf => "-Infinity"
  | .fin q => toFixed q digits

/-- The summary returned by `main.ts` line 192: no dollar sign before the
price and a trailing " stale" after the minutes. -/
def summaryMain (feedName status : String) (price : ℚ) (staleness : JSNum) : String :=
  feedName ++ ": " ++ status ++ " (" ++ toFixed price 2 ++ ", " ++
    jsToFixed staleness 1 ++ "m stale)"

/-- The summary returned by `part_000` line 134: dollar sign before the
price, minutes suffixed by a bare "m". -/
def summaryPart (feedName status : String) (price : ℚ) (staleness : JSNum) : String :=
  feedName ++ ": " ++ status ++ " ($" ++ toFixed price 2 ++ ", " ++
    jsToFixed staleness 1 ++ "m)"

/-- Modelled from the spec: the machine summary shape
"[feedName]: [status] ($[price], [stalenessMinutes]m)" with the price to
two decimal places and the staleness to one. -/
def summarySpec (feedName status : String) (price : ℚ) (staleness : JSNum) : String :=
  feedName ++ ": " ++ status ++ " ($" ++ toFixed price 2 ++ ", " ++
    jsToFixed staleness 1 ++ "m)"

/-- The workflow configuration record.  The zod schema `configSchema` gives
the field types; `stalenessThresholdMinutes` is a finite JS number
(`z.number()` rejects NaN), modelled by an exact rational. -/
structure Config where
  schedule : String
  feedAddress : String
  feedName : String
  stalenessThresholdMinutes : ℚ
  chainSelectorName : String
  isTestnet : Bool
deriving DecidableEq, Repr

/-- One hexadecimal digit, as in the character class `[a-fA-F0-9]`. -/
def isHexDigit (ch : Char) : Bool :=
  (decide ('0' ≤ ch) && decide (ch ≤ '9')) ||
  (decide ('a' ≤ ch) && decide (ch ≤ 'f')) ||
  (decide ('A' ≤ ch) && decide (ch ≤ 'F'))

/-- The regex `^0x[a-fA-F0-9]{40}$` applied to `feedAddress` by both zod
schemas: the literal prefix "0x" followed by exactly forty hex digits and
nothing else. -/
def isValidFeedAddress (s : String) : Bool :=
  match s.toList with
  | '0' :: 'x' :: rest => rest.length = 40 && rest.all isHexDigit
  | _ => false

/-- The value-level violations `configSchema.parse` can report: the
`feedAddress` regex and the `.positive()` refinement on the threshold.
The remaining fields carry only type-level checks (`z.string()`,
`z.boolean()`), which the Lean field types absorb; in particular
`z.string()` accepts the empty string. -/
inductive ConfigError where
  | invalidFeedAddress : ConfigError
  | nonPositiveThreshold : ConfigError
deriving DecidableEq, Repr

/-- `configSchema.parse` (identical in both sources): fails on a malformed
feed address or a non-positive staleness threshold, otherwise returns the
config unchanged. -/
def validateConfig (c : Config) : Except ConfigError Config :=
  if isValidFeedAddress c.feedAddress then
    if 0 < c.stalenessThresholdMinutes then .ok c
    else .error .nonPositiveThreshold
  else .error .invalidFeedAddress

/-- Which of the three reads a dispatched contract call encodes. -/
inductive CallName where
  | description : CallName
  | decimals : CallName
  | latestRoundData : CallName
deriving DecidableEq, Repr

/-- The block reference a contract call is pinned to.  The sources pass
`LAST_FINALIZED_BLOCK_NUMBER` to every call; the other constructors exist
so that pinning is a meaningful property. -/
inductive BlockRef where
  | lastFinalized : BlockRef
  | head : BlockRef
  | number (n : Nat) : BlockRef
deriving DecidableEq, Repr

/-- One dispatched read call: `callContract(runtime, { call: encodeCallMsg
({ from: zeroAddress, to: feedAddr, data: ... }), blockNumber: ... })`. -/
structure ContractCall where
  fromAddr : String
  toAddr : String
  callName : CallName
  blockRef : BlockRef
deriving DecidableEq, Repr

/-- `zeroAddress` from viem, the `from` of every dispatched call. -/
def zeroAddress : String := "0x0000000000000000000000000000000000000000"

/-- The decoded `latestRoundData` 5-tuple: roundId uint80, answer int256,
startedAt uint256, updatedAt uint256, answeredInRound uint80. -/
structure RoundData where
  roundId : Nat
  answer : Int
  startedAt : Nat
  updatedAt : Nat
  answeredInRound : Nat
deriving DecidableEq, Repr

/-- How one evaluation can fail: config validation, network resolution,
one of the three reads (`promise.result()` throws), or the RangeError from
`toISOString()` on an invalid update date. -/
inductive EvalError where
  | configError (e : ConfigError) : EvalError
  | networkNotFound : EvalError
  | callFailed (c : CallName) : EvalError
  | invalidDate : EvalError
deriving DecidableEq, Repr

deriving instance DecidableEq for Except

/-- The observable outcome of one evaluation: the list of contract calls it
dispatched, the health status it computed (if the classification step was
reached), and either the returned summary string or the error that aborted
the run. -/
structure EvalOutcome where
  calls : List ContractCall
  status : Option String
  result : Except EvalError String
deriving DecidableEq, Repr

/-- The three read calls both variants dispatch, in source order, each
pinned to the last-finalized block. -/
def feedCalls (feedAddr : String) : List ContractCall :=
  [⟨zeroAddress, feedAddr, .description, .lastFinalized⟩,
   ⟨zeroAddress, feedAddr, .decimals, .lastFinalized⟩,
   ⟨zeroAddress, feedAddr, .latestRoundData, .lastFinalized⟩]

/-- `onCronTrigger` of `main.ts` (lines 66-199).  Inputs beyond the config:
whether `getNetwork` resolves, the outcome of each of the three reads
(`Except.error ()` models a failed `promise.result()`; a success carries
the decoded value), and the evaluation wall-clock time `now.getTime()` in
milliseconds.  The body: validate, resolve the network, dispatch the three
calls, resolve and decode each, compute price and staleness, classify,
log the report (where `toISOString()` throws if the update date is
invalid), and return the summary.  The `try/catch` re-throws, so a thrown
error is the returned error. -/
def evalMain (cfg : Config) (networkOk : Bool)
    (descRes : Except Unit String) (decimalsRes : Except Unit Nat)
    (roundRes : Except Unit RoundData) (nowMs : ℚ) : EvalOutcome :=
  match validateConfig cfg with
  | .error e => ⟨[], none, .error (.configError e)⟩
  | .ok config =>
    if networkOk then
      let calls := feedCalls config.feedAddress
      match descRes with
      | .error _ => ⟨calls, none, .error (.callFailed .description)⟩
      | .ok _description =>
        match decimalsRes with
        | .error _ => ⟨calls, none, .error (.callFailed .decimals)⟩
        | .ok decimals =>
          match roundRes with
          | .error _ => ⟨calls, none, .error (.callFailed .latestRoundData)⟩
          | .ok rd =>
            let price := priceOf rd.answer decimals
            let updatedAtMs := jsNumberOfNat rd.updatedAt * 1000
            let dateValid := updatedAtMs ≤ maxDateMs
            let updatedTime : JSNum :=
              if dateValid then .fin (updatedAtMs : ℚ) else .nan
            let stalenessMinutes := jsDiv60000 (jsSubFin nowMs updatedTime)
            let status :=
              classifyStatus stalenessMinutes (.fin config.stalenessThresholdMinutes)
            if dateValid then
              ⟨calls, some status,
                .ok (summaryMain config.feedName status price stalenessMinutes)⟩
            else ⟨calls, some status, .error .invalidDate⟩
    else ⟨[], none, .error .networkNotFound⟩

/-- `onCronTrigger` of `part_000` (lines 53-135): the same pipeline as
`evalMain` over the same inputs, returning its own summary format. -/
def evalPart (cfg : Config) (networkOk : Bool)
    (descRes : Except Unit String) (decimalsRes : Except Unit Nat)
    (roundRes : Except Unit RoundData) (nowMs : ℚ) : EvalOutcome :=
  match validateConfig cfg with
  | .error e => ⟨[], none, .error (.configError e)⟩
  | .ok config =>
    if networkOk then
      let calls := feedCalls config.feedAddress
      match descRes with
      | .error _ => ⟨calls, none, .error (.callFailed .description)⟩
      | .ok _description =>
        match decimalsRes with
        | .error _ => ⟨calls, none, .error (.callFailed .decimals)⟩
        | .ok decimals =>
          match roundRes with
          | .error _ => ⟨calls, none, .error (.callFailed .latestRoundData)⟩
          | .ok rd =>
            let price := priceOf rd.answer decimals
            let updatedAtMs := jsNumberOfNat rd.updatedAt * 1000
            let dateValid := updatedAtMs ≤ maxDateMs
            let updatedTime : JSNum :=
              if dateValid then .fin (updatedAtMs : ℚ) else .nan
            let stalenessMinutes := jsDiv60000 (jsSubFin nowMs updatedTime)
            let status :=
              classifyStatus stalenessMinutes (.fin config.stalenessThresholdMinutes)
            if dateValid then
              ⟨calls, some status,
                .ok (summaryPart config.feedName status price stalenessMinutes)⟩
            else ⟨calls, some status, .error .invalidDate⟩
    else ⟨[], none, .error .networkNotFound⟩

/-! ## Concrete scenarios used by counterexamples and witnesses -/

/-- A well-formed configuration (the Base-mainnet ETH/USD feed of the
repository's own example material). -/
def cfgOk : Config :=
  ⟨"*/30 * * * * *", "0x71041dddad3595F9CEd3DcCFBe3D1F4b0a16Bb70", "ETH / USD", 10,
   "ethereum-mainnet-base-1", false⟩

/-- A configuration whose schedule, feed name and chain selector name are
all empty, with a well-formed address and a positive threshold. -/
def cfgEmptyStrings : Config :=
  ⟨"", "0x71041dddad3595F9CEd3DcCFBe3D1F4b0a16Bb70", "", 10, "", false⟩

/-- A configuration whose feed address has non-hex characters (the spec's
end-to-end scenario 4). -/
def cfgBadAddress : Config :=
  ⟨"*/30 * * * * *", "0xZZZZZZZZZZZZZZZZZZZZZZZZZZZZZZZZZZZZZZZZ", "ETH / USD", 10,
   "ethereum-mainnet-base-1", false⟩

/-- A decoded round: answer 2000.00000000 at 8 decimals, updated at Unix
second 1700000000. -/
def rdOk : RoundData := ⟨42, 200000000000, 1700000000, 1700000000, 42⟩

/-- A decoded round whose `updatedAt`, in milliseconds, exceeds the
maximal JS `Date` time value: `Number(10 ^ 13) * 1000 = 10 ^ 16 > 8.64e15`
(both conversions are exact in doubles). -/
def rdHugeUpdatedAt : RoundData := ⟨1, 200000000000, 0, 10 ^ 13, 1⟩

/-- An evaluation clock 5 minutes (300000 ms) after `rdOk`'s update. -/
def nowOk : ℚ := 1700000300000

/-! ## Claims -/

/-- C1: for every threshold `t > 0` and staleness `s`, the classifier used
by both source variants returns OK when `s < t`, WARN when `t ≤ s < 3t`,
and FAIL when `s ≥ 3t`; in particular `s = t` gives WARN and `s = 3t`
gives FAIL, because both comparisons are strict. -/
theorem c1_classification_tiers (s t : ℚ) (ht : 0 < t) :
    (s < t → classifyStatus (.fin s) (.fin t) = "OK") ∧
    (t ≤ s → s < t * 3 → classifyStatus (.fin s) (.fin t) = "WARN") ∧
    (t * 3 ≤ s → classifyStatus (.fin s) (.fin t) = "FAIL") ∧
    classifyStatus (.fin t) (.fin t) = "WARN" ∧
    classifyStatus (.fin (t * 3)) (.fin t) = "FAIL" := by
  have h3 : t < t * 3 := by nlinarith
  refine ⟨?_, ?_, ?_, ?_, ?_⟩
  · intro h
    simp [classifyStatus, jsLt, jsMul3, h]
  · intro h1 h2
    simp [classifyStatus, jsLt, jsMul3, not_lt.mpr h1, h2]
  · intro h1
    have h2 : ¬ s < t := not_lt.mpr (le_trans (le_of_lt h3) h1)
    simp [classifyStatus, jsLt, jsMul3, h2, not_lt.mpr h1]
  · simp [classifyStatus, jsLt, jsMul3, lt_irrefl, h3]
  · simp [classifyStatus, jsLt, jsMul3, not_lt.mpr (le_of_lt h3), lt_irrefl]

/-- Witness for C1 at `s = 5`, `t = 2`. -/
theorem c1_classification_tiers_witness :
    (0 : ℚ) < 2 ∧
    (((5 : ℚ) < 2 → classifyStatus (.fin 5) (.fin 2) = "OK") ∧
     ((2 : ℚ) ≤ 5 → (5 : ℚ) < 2 * 3 → classifyStatus (.fin 5) (.fin 2) = "WARN") ∧
     ((2 : ℚ) * 3 ≤ 5 → classifyStatus (.fin 5) (.fin 2) = "FAIL") ∧
     classifyStatus (.fin 2) (.fin 2) = "WARN" ∧
     classifyStatus (.fin ((2 : ℚ) * 3)) (.fin 2) = "FAIL") :=
  ⟨by decide, c1_classification_tiers 5 2 (by decide)⟩

/-- C9: the classification is total over all JS numbers: whatever the
staleness and threshold (NaN and infinities included), the status is one
of OK, WARN, FAIL; and a NaN staleness falls through both strict
comparisons, so it is classified FAIL. -/
theorem c9_classification_total_nan_fails (s t : JSNum) :
    (classifyStatus s t = "OK" ∨ classifyStatus s t = "WARN" ∨
      classifyStatus s t = "FAIL") ∧
    classifyStatus .nan t = "FAIL" := by
  constructor
  · cases hj : jsLt s t <;> cases hk : jsLt s (jsMul3 t) <;>
      simp [classifyStatus, hj, hk]
  · cases t <;> rfl

/-- Counterexample to C2: both zod schemas use a bare `z.string()` for
schedule, feedName and chainSelectorName, so a configuration in which all
three are empty passes validation, and the evaluation proceeds to a
successful summary. -/
theorem c2_counterexample :
    validateConfig cfgEmptyStrings = .ok cfgEmptyStrings ∧
    (evalMain cfgEmptyStrings true (.ok "ETH / USD") (.ok 8) (.ok rdOk)
        nowOk).result.isOk = true := by
  have hv : validateConfig cfgEmptyStrings = .ok cfgEmptyStrings := by decide
  refine ⟨hv, ?_⟩
  simp only [evalMain, hv]
  norm_num [cfgEmptyStrings, rdOk, nowOk, jsNumberOfNat, maxDateMs, Except.isOk,
    Except.toBool]

/-- C2 amended: validation checks only the feed-address pattern and the
threshold's positivity; any configuration passing those two checks is
accepted, whether or not schedule, feedName or chainSelectorName is
empty. -/
theorem c2_amended_validation_accepts (cfg : Config)
    (ha : isValidFeedAddress cfg.feedAddress = true)
    (ht : 0 < cfg.stalenessThresholdMinutes) :
    validateConfig cfg = .ok cfg := by
  simp [validateConfig, ha, ht]

/-- Witness for the amended C2 at the all-empty-strings configuration. -/
theorem c2_amended_validation_accepts_witness :
    isValidFeedAddress cfgEmptyStrings.feedAddress = true ∧
    0 < cfgEmptyStrings.stalenessThresholdMinutes ∧
    validateConfig cfgEmptyStrings = .ok cfgEmptyStrings :=
  ⟨by decide, by decide,
    c2_amended_validation_accepts cfgEmptyStrings (by decide) (by decide)⟩

/-- C4: a feed address failing the `^0x[a-fA-F0-9]{40}$` pattern, or a
non-positive staleness threshold, makes both variants fail with a
configuration error before any contract call is dispatched; no partial or
default value is substituted. -/
theorem c4_invalid_config_rejected (cfg : Config) (networkOk : Bool)
    (d : Except Unit String) (dec : Except Unit Nat) (rd : Except Unit RoundData)
    (now : ℚ)
    (h : isValidFeedAddress cfg.feedAddress = false ∨
      ¬ 0 < cfg.stalenessThresholdMinutes) :
    ((evalMain cfg networkOk d dec rd now).calls = [] ∧
      ∃ e, (evalMain cfg networkOk d dec rd now).result = .error (.configError e)) ∧
    ((evalPart cfg networkOk d dec rd now).calls = [] ∧
      ∃ e, (evalPart cfg networkOk d dec rd now).result = .error (.configError e)) := by
  have hv : ∃ e, validateConfig cfg = .error e := by
    rcases h with h | h
    · exact ⟨.invalidFeedAddress, by simp [validateConfig, h]⟩
    · by_cases ha : isValidFeedAddress cfg.feedAddress
      · exact ⟨.nonPositiveThreshold, by simp [validateConfig, ha, h]⟩
      · exact ⟨.invalidFeedAddress, by simp [validateConfig, ha]⟩
  obtain ⟨e, he⟩ := hv
  refine ⟨⟨?_, ⟨e, ?_⟩⟩, ⟨?_, ⟨e, ?_⟩⟩⟩ <;> simp [evalMain, evalPart, he]

/-- Witness for C4 at the spec's scenario 4 (address with non-hex
characters). -/
theorem c4_invalid_config_rejected_witness :
    (isValidFeedAddress cfgBadAddress.feedAddress = false ∨
      ¬ 0 < cfgBadAddress.stalenessThresholdMinutes) ∧
    (((evalMain cfgBadAddress true (.ok "ETH / USD") (.ok 8) (.ok rdOk) nowOk).calls = [] ∧
      ∃ e, (evalMain cfgBadAddress true (.ok "ETH / USD") (.ok 8) (.ok rdOk)
        nowOk).result = .error (.configError e)) ∧
     ((evalPart cfgBadAddress true (.ok "ETH / USD") (.ok 8) (.ok rdOk) nowOk).calls = [] ∧
      ∃ e, (evalPart cfgBadAddress true (.ok "ETH / USD") (.ok 8) (.ok rdOk)
        nowOk).result = .error (.configError e))) :=
  ⟨Or.inl (by decide),
    c4_invalid_config_rejected cfgBadAddress true (.ok "ETH / USD") (.ok 8) (.ok rdOk)
      nowOk (Or.inl (by decide))⟩

/-- C5: if any one of the three reads fails, both variants abort with an
error: no health status is computed and no summary string is returned. -/
theorem c5_call_failure_aborts (cfg : Config) (networkOk : Bool)
    (d : Except Unit String) (dec : Except Unit Nat) (rd : Except Unit RoundData)
    (now : ℚ)
    (h : d = .error () ∨ dec = .error () ∨ rd = .error ()) :
    ((evalMain cfg networkOk d dec rd now).status = none ∧
      (evalMain cfg networkOk d dec rd now).result.isOk = false) ∧
    ((evalPart cfg networkOk d dec rd now).status = none ∧
      (evalPart cfg networkOk d dec rd now).result.isOk = false) := by
  cases hv : validateConfig cfg with
  | error e => simp [evalMain, evalPart, hv, Except.isOk, Except.toBool]
  | ok c0 =>
    cases networkOk with
    | false => simp [evalMain, evalPart, hv, Except.isOk, Except.toBool]
    | true =>
      rcases h with h | h | h
      · subst h
        simp [evalMain, evalPart, hv, Except.isOk, Except.toBool]
      · subst h
        cases d <;> simp [evalMain, evalPart, hv, Except.isOk, Except.toBool]
      · subst h
        cases d <;> cases dec <;> simp [evalMain, evalPart, hv, Except.isOk, Except.toBool]

/-- Witness for C5 with the description read failing. -/
theorem c5_call_failure_aborts_witness :
    ((.error () : Except Unit String) = .error () ∨
      (.ok 8 : Except Unit Nat) = .error () ∨
      (.ok rdOk : Except Unit RoundData) = .error ()) ∧
    (((evalMain cfgOk true (.error ()) (.ok 8) (.ok rdOk) nowOk).status = none ∧
      (evalMain cfgOk true (.error ()) (.ok 8) (.ok rdOk) nowOk).result.isOk = false) ∧
     ((evalPart cfgOk true (.error ()) (.ok 8) (.ok rdOk) nowOk).status = none ∧
      (evalPart cfgOk true (.error ()) (.ok 8) (.ok rdOk) nowOk).result.isOk = false)) :=
  ⟨Or.inl rfl,
    c5_call_failure_aborts cfgOk true (.error ()) (.ok 8) (.ok rdOk) nowOk (Or.inl rfl)⟩

/-- Successful validation returns the input configuration unchanged. -/
theorem validateConfig_ok_id (cfg c : Config) (h : validateConfig cfg = .ok c) :
    c = cfg := by
  by_cases ha : isValidFeedAddress cfg.feedAddress
  · by_cases ht : 0 < cfg.stalenessThresholdMinutes
    · simp [validateConfig, ha, ht] at h
      exact h.symm
    · simp [validateConfig, ha, ht] at h
  · simp [validateConfig, ha] at h

/-- Every call in the three-call batch is pinned to the last-finalized
block. -/
theorem feedCalls_pinned (a : String) (c : ContractCall) (hc : c ∈ feedCalls a) :
    c.blockRef = .lastFinalized := by
  simp [feedCalls] at hc
  rcases hc with rfl | rfl | rfl <;> rfl

/-- C7: in every evaluation of either variant, every dispatched contract
call carries the last-finalized-block reference; no call ever uses a
speculative or head block. -/
theorem c7_calls_pinned_to_finalized (cfg : Config) (networkOk : Bool)
    (d : Except Unit String) (dec : Except Unit Nat) (rd : Except Unit RoundData)
    (now : ℚ) (c : ContractCall) :
    (c ∈ (evalMain cfg networkOk d dec rd now).calls →
      c.blockRef = .lastFinalized) ∧
    (c ∈ (evalPart cfg networkOk d dec rd now).calls →
      c.blockRef = .lastFinalized) := by
  have hshape : ∀ o : EvalOutcome,
      (o.calls = [] ∨ ∃ a, o.calls = feedCalls a) → c ∈ o.calls →
        c.blockRef = .lastFinalized := by
    rintro o (ho | ⟨a, ho⟩) hc
    · rw [ho] at hc
      cases hc
    · rw [ho] at hc
      exact feedCalls_pinned a c hc
  constructor <;>
    refine hshape _ ?_
  · cases hv : validateConfig cfg with
    | error e => left; simp [evalMain, hv]
    | ok c0 =>
      cases networkOk with
      | false => left; simp [evalMain, hv]
      | true =>
        right
        refine ⟨c0.feedAddress, ?_⟩
        cases d with
        | error u => simp [evalMain, hv]
        | ok ds =>
          cases dec with
          | error u => simp [evalMain, hv]
          | ok dc =>
            cases rd with
            | error u => simp [evalMain, hv]
            | ok r => simp [evalMain, hv, apply_ite EvalOutcome.calls]
  · cases hv : validateConfig cfg with
    | error e => left; simp [evalPart, hv]
    | ok c0 =>
      cases networkOk with
      | false => left; simp [evalPart, hv]
      | true =>
        right
        refine ⟨c0.feedAddress, ?_⟩
        cases d with
        | error u => simp [evalPart, hv]
        | ok ds =>
          cases dec with
          | error u => simp [evalPart, hv]
          | ok dc =>
            cases rd with
            | error u => simp [evalPart, hv]
            | ok r => simp [evalPart, hv, apply_ite EvalOutcome.calls]

/-- Witness for C7: the description call of a concrete successful run is
in the dispatched list and is pinned to the last-finalized block. -/
theorem c7_calls_pinned_to_finalized_witness :
    (⟨zeroAddress, "0x71041dddad3595F9CEd3DcCFBe3D1F4b0a16Bb70", .description,
        .lastFinalized⟩ : ContractCall) ∈
      (evalMain cfgOk true (.ok "ETH / USD") (.ok 8) (.ok rdOk) nowOk).calls ∧
    (⟨zeroAddress, "0x71041dddad3595F9CEd3DcCFBe3D1F4b0a16Bb70", .description,
        .lastFinalized⟩ : ContractCall).blockRef = .lastFinalized := by
  have hv : validateConfig cfgOk = .ok cfgOk := by decide
  have hm : (⟨zeroAddress, "0x71041dddad3595F9CEd3DcCFBe3D1F4b0a16Bb70", .description,
      .lastFinalized⟩ : ContractCall) ∈
      (evalMain cfgOk true (.ok "ETH / USD") (.ok 8) (.ok rdOk) nowOk).calls := by
    simp only [evalMain, hv]
    norm_num [cfgOk, rdOk, nowOk, jsNumberOfNat, maxDateMs, feedCalls, zeroAddress]
  exact ⟨hm,
    (c7_calls_pinned_to_finalized cfgOk true (.ok "ETH / USD") (.ok 8) (.ok rdOk) nowOk
      _).1 hm⟩

/-- Counterexample to C8: on one and the same input the two variants
return different summary strings (`main.ts` omits the dollar sign and
appends " stale"). -/
theorem c8_counterexample :
    (evalMain cfgOk true (.ok "ETH / USD") (.ok 8) (.ok rdOk) nowOk).result
        = .ok "ETH / USD: OK (2000.00, 5.0m stale)" ∧
    (evalPart cfgOk true (.ok "ETH / USD") (.ok 8) (.ok rdOk) nowOk).result
        = .ok "ETH / USD: OK ($2000.00, 5.0m)" ∧
    ("ETH / USD: OK (2000.00, 5.0m stale)" : String)
        ≠ "ETH / USD: OK ($2000.00, 5.0m)" := by
  have hv : validateConfig cfgOk = .ok cfgOk := by decide
  refine ⟨?_, ?_, by decide⟩
  · simp only [evalMain, hv]
    norm_num [cfgOk, rdOk, nowOk, priceOf, jsNumberOfInt, jsNumberOfNat, maxDateMs,
      jsDiv60000, jsSubFin, classifyStatus, jsLt, jsMul3, summaryMain, toFixed, jsToFixed,
      padZeros]
    rfl
  · simp only [evalPart, hv]
    norm_num [cfgOk, rdOk, nowOk, priceOf, jsNumberOfInt, jsNumberOfNat, maxDateMs,
      jsDiv60000, jsSubFin, classifyStatus, jsLt, jsMul3, summaryPart, toFixed, jsToFixed,
      padZeros]
    rfl

/-- C8 amended: on every identical input the two variants dispatch the
same calls, compute the same health status, and succeed or fail alike;
only the success summary strings differ (shapes given by `summaryMain`
and `summaryPart`). -/
theorem c8_amended_same_status (cfg : Config) (networkOk : Bool)
    (d : Except Unit String) (dec : Except Unit Nat) (rd : Except Unit RoundData)
    (now : ℚ) :
    (evalMain cfg networkOk d dec rd now).status
        = (evalPart cfg networkOk d dec rd now).status ∧
    (evalMain cfg networkOk d dec rd now).calls
        = (evalPart cfg networkOk d dec rd now).calls ∧
    (evalMain cfg networkOk d dec rd now).result.isOk
        = (evalPart cfg networkOk d dec rd now).result.isOk := by
  cases hv : validateConfig cfg with
  | error e => simp [evalMain, evalPart, hv]
  | ok c0 =>
    cases networkOk with
    | false => simp [evalMain, evalPart, hv]
    | true =>
      cases d with
      | error u => simp [evalMain, evalPart, hv]
      | ok ds =>
        cases dec with
        | error u => simp [evalMain, evalPart, hv]
        | ok dc =>
          cases rd with
          | error u => simp [evalMain, evalPart, hv]
          | ok r =>
            simp only [evalMain, evalPart, hv]
            by_cases hd : jsNumberOfNat r.updatedAt * 1000 ≤ maxDateMs <;>
              simp [hd, Except.isOk, Except.toBool]

/-- Counterexample to C3: a successful `main.ts` evaluation returns a
summary that is not of the spec's shape: at computed price 2000 and
staleness 5.0 minutes the spec shape is "ETH / USD: OK ($2000.00, 5.0m)"
but the returned string drops the dollar sign and appends " stale". -/
theorem c3_counterexample :
    (evalMain cfgOk true (.ok "ETH / USD") (.ok 8) (.ok rdOk) nowOk).result
        = .ok "ETH / USD: OK (2000.00, 5.0m stale)" ∧
    priceOf rdOk.answer 8 = 2000 ∧
    jsDiv60000 (jsSubFin nowOk (.fin ((jsNumberOfNat rdOk.updatedAt * 1000 : Nat) : ℚ)))
        = .fin 5 ∧
    summarySpec "ETH / USD" "OK" 2000 (.fin 5) = "ETH / USD: OK ($2000.00, 5.0m)" ∧
    ("ETH / USD: OK (2000.00, 5.0m stale)" : String)
        ≠ "ETH / USD: OK ($2000.00, 5.0m)" := by
  have hv : validateConfig cfgOk = .ok cfgOk := by decide
  refine ⟨?_, ?_, ?_, ?_, by decide⟩
  · simp only [evalMain, hv]
    norm_num [cfgOk, rdOk, nowOk, priceOf, jsNumberOfInt, jsNumberOfNat, maxDateMs,
      jsDiv60000, jsSubFin, classifyStatus, jsLt, jsMul3, summaryMain, toFixed, jsToFixed,
      padZeros]
    rfl
  · norm_num [rdOk, priceOf, jsNumberOfInt, jsNumberOfNat]
  · norm_num [rdOk, nowOk, jsNumberOfNat, jsDiv60000, jsSubFin]
  · norm_num [summarySpec, toFixed, jsToFixed, padZeros]
    rfl

/-- C3 amended: a successful `part_000` evaluation returns exactly the
spec's summary shape; a successful `main.ts` evaluation returns the
`summaryMain` shape instead (no dollar sign, trailing " stale"). -/
theorem c3_amended_summary_shapes (cfg : Config) (networkOk : Bool)
    (d : Except Unit String) (dec : Except Unit Nat) (rd : Except Unit RoundData)
    (now : ℚ) :
    (∀ s, (evalPart cfg networkOk d dec rd now).result = .ok s →
      ∃ st pr sl, s = summarySpec cfg.feedName st pr sl) ∧
    (∀ s, (evalMain cfg networkOk d dec rd now).result = .ok s →
      ∃ st pr sl, s = summaryMain cfg.feedName st pr sl) := by
  constructor <;> intro s hs
  · cases hv : validateConfig cfg with
    | error e => simp [evalPart, hv] at hs
    | ok c0 =>
      obtain rfl : c0 = cfg := validateConfig_ok_id cfg c0 hv
      cases networkOk with
      | false => simp [evalPart, hv] at hs
      | true =>
        cases d with
        | error u => simp [evalPart, hv] at hs
        | ok ds =>
          cases dec with
          | error u => simp [evalPart, hv] at hs
          | ok dc =>
            cases rd with
            | error u => simp [evalPart, hv] at hs
            | ok r =>
              simp only [evalPart, hv] at hs
              by_cases hd : jsNumberOfNat r.updatedAt * 1000 ≤ maxDateMs
              · rw [if_pos hd] at hs
                simp at hs
                exact ⟨_, _, _, hs.symm⟩
              · rw [if_neg hd] at hs
                simp at hs
  · cases hv : validateConfig cfg with
    | error e => simp [evalMain, hv] at hs
    | ok c0 =>
      obtain rfl : c0 = cfg := validateConfig_ok_id cfg c0 hv
      cases networkOk with
      | false => simp [evalMain, hv] at hs
      | true =>
        cases d with
        | error u => simp [evalMain, hv] at hs
        | ok ds =>
          cases dec with
          | error u => simp [evalMain, hv] at hs
          | ok dc =>
            cases rd with
            | error u => simp [evalMain, hv] at hs
            | ok r =>
              simp only [evalMain, hv] at hs
              by_cases hd : jsNumberOfNat r.updatedAt * 1000 ≤ maxDateMs
              · rw [if_pos hd] at hs
                simp at hs
                exact ⟨_, _, _, hs.symm⟩
              · rw [if_neg hd] at hs
                simp at hs

/-- Witness for the amended C3 at a concrete successful evaluation. -/
theorem c3_amended_summary_shapes_witness :
    (evalPart cfgOk true (.ok "ETH / USD") (.ok 8) (.ok rdOk) nowOk).result
        = .ok "ETH / USD: OK ($2000.00, 5.0m)" ∧
    (∃ st pr sl,
      "ETH / USD: OK ($2000.00, 5.0m)" = summarySpec cfgOk.feedName st pr sl) := by
  have hv : validateConfig cfgOk = .ok cfgOk := by decide
  have hp : (evalPart cfgOk true (.ok "ETH / USD") (.ok 8) (.ok rdOk) nowOk).result
      = .ok "ETH / USD: OK ($2000.00, 5.0m)" := by
    simp only [evalPart, hv]
    norm_num [cfgOk, rdOk, nowOk, priceOf, jsNumberOfInt, jsNumberOfNat, maxDateMs,
      jsDiv60000, jsSubFin, classifyStatus, jsLt, jsMul3, summaryPart, toFixed, jsToFixed,
      padZeros]
    rfl
  exact ⟨hp,
    (c3_amended_summary_shapes cfgOk true (.ok "ETH / USD") (.ok 8) (.ok rdOk) nowOk).1
      _ hp⟩

/-- C10: a decodable round whose `updatedAt` exceeds the maximal JS date
(`Number(10 ^ 13) * 1000 = 10 ^ 16 > 8.64e15`) makes both variants fail
with the `toISOString` range error during report rendering and return no
summary, even though all three calls resolved and decoded and a status
(FAIL, from the NaN staleness) had already been computed. -/
theorem c10_huge_updatedAt_render_failure :
    maxDateMs < jsNumberOfNat rdHugeUpdatedAt.updatedAt * 1000 ∧
    (evalMain cfgOk true (.ok "ETH / USD") (.ok 8) (.ok rdHugeUpdatedAt) nowOk).result
        = .error .invalidDate ∧
    (evalMain cfgOk true (.ok "ETH / USD") (.ok 8) (.ok rdHugeUpdatedAt) nowOk).status
        = some "FAIL" ∧
    (evalPart cfgOk true (.ok "ETH / USD") (.ok 8) (.ok rdHugeUpdatedAt) nowOk).result
        = .error .invalidDate ∧
    (evalPart cfgOk true (.ok "ETH / USD") (.ok 8) (.ok rdHugeUpdatedAt) nowOk).status
        = some "FAIL" := by
  have hv : validateConfig cfgOk = .ok cfgOk := by decide
  refine ⟨by decide, ?_, ?_, ?_, ?_⟩ <;>
  · simp only [evalMain, evalPart, hv]
    norm_num [cfgOk, rdHugeUpdatedAt, nowOk, jsNumberOfNat, maxDateMs, jsDiv60000,
      jsSubFin, classifyStatus, jsLt, jsMul3]

/-- The bit length of zero is zero at any fuel. -/
theorem bitsAux_zero (f : Nat) : bitsAux f 0 = 0 := by
  cases f <;> simp [bitsAux]

/-- A positive number within fuel has positive bit length. -/
theorem bitsAux_pos (f n : Nat) (h1 : 1 ≤ n) (h2 : n < 2 ^ f) :
    1 ≤ bitsAux f n := by
  cases f with
  | zero =>
    simp at h2
    omega
  | succ f =>
    simp only [bitsAux]
    rw [if_neg (by omega)]
    omega

/-- Lower bound of the bit length: a positive `n` below `2 ^ f` is at
least `2 ^ (bitsAux f n - 1)`. -/
theorem two_pow_bitsAux_le (f : Nat) : ∀ n, 1 ≤ n → n < 2 ^ f →
    2 ^ (bitsAux f n - 1) ≤ n := by
  induction f with
  | zero =>
    intro n h1 h2
    simp at h2
    omega
  | succ f ih =>
    intro n h1 h2
    simp only [bitsAux]
    rw [if_neg (by omega)]
    by_cases h0 : n / 2 = 0
    · have hn1 : n = 1 := by omega
      subst hn1
      simp [bitsAux_zero]
    · have hh1 : 1 ≤ n / 2 := by omega
      have hh2 : n / 2 < 2 ^ f := by
        rw [pow_succ] at h2
        omega
      have hb : 1 ≤ bitsAux f (n / 2) := bitsAux_pos f (n / 2) hh1 hh2
      have ihh := ih (n / 2) hh1 hh2
      have key : 2 ^ (bitsAux f (n / 2) + 1 - 1) = 2 * 2 ^ (bitsAux f (n / 2) - 1) := by
        rw [Nat.add_sub_cancel]
        conv_lhs => rw [← Nat.sub_add_cancel hb]
        rw [pow_succ]
        ring
      rw [key]
      omega

/-- The rounded conversion of a positive integer within fuel is positive:
the rounding step never collapses a nonzero value to zero. -/
theorem jsNumberOfNat_pos (n : Nat) (h1 : 1 ≤ n) (h2 : n < 2 ^ bitFuel) :
    1 ≤ jsNumberOfNat n := by
  rw [jsNumberOfNat]
  by_cases hs : n ≤ 2 ^ 53
  · rw [if_pos hs]
    exact h1
  · rw [if_neg hs]
    simp only
    have hble : 2 ^ (bitLen n - 1) ≤ n := two_pow_bitsAux_le bitFuel n h1 h2
    have hee : 2 ^ (bitLen n - 53) ≤ n :=
      le_trans (Nat.pow_le_pow_right (by norm_num) (by omega)) hble
    have hq : 1 ≤ n / 2 ^ (bitLen n - 53) :=
      (Nat.one_le_div_iff (Nat.pos_pow_of_pos _ (by norm_num))).mpr hee
    have hpow : 1 ≤ 2 ^ (bitLen n - 53) := Nat.one_le_two_pow
    by_cases hr : 2 ^ (bitLen n - 53 - 1) < n % 2 ^ (bitLen n - 53)
        ∨ (n % 2 ^ (bitLen n - 53) = 2 ^ (bitLen n - 53 - 1)
            ∧ n / 2 ^ (bitLen n - 53) % 2 = 1)
    · rw [if_pos (by simpa using hr)]
      exact Nat.one_le_iff_ne_zero.mpr (Nat.mul_ne_zero (by omega) (by omega))
    · rw [if_neg (by simpa using hr)]
      exact Nat.one_le_iff_ne_zero.mpr (Nat.mul_ne_zero (by omega) (by omega))

/-- Counterexample to C6: at `answer = 2 ^ 53 + 1` and `decimals = 0` the
computed price is `2 ^ 53`, not the exact quotient `2 ^ 53 + 1`: the
bigint-to-double conversion rounds, so the division is not exact decimal
division for arbitrarily large int256 answers.  (At `decimals = 0` the
division step is by 1, which is exact in doubles, so the whole
discrepancy is the conversion.) -/
theorem c6_counterexample :
    jsNumberOfInt (2 ^ 53 + 1) = 2 ^ 53 ∧
    priceOf (2 ^ 53 + 1) 0 ≠ priceSpec (2 ^ 53 + 1) 0 := by
  have h : jsNumberOfInt (2 ^ 53 + 1) = 2 ^ 53 := by decide
  refine ⟨h, ?_⟩
  rw [priceOf, priceSpec, h]
  norm_num

/-- C6 amended: the classifier computes the price in double arithmetic as
`Number(answer) / 10 ** decimals`, which is not the exact decimal
quotient in general — the conversion rounds (counterexample above) and
the division can round as well.  At `decimals = 0` the division is by
one, which is exact in doubles, and there the price equals the exact
quotient whenever `|answer| ≤ 2 ^ 53` (the conversion is then exact);
and a negative int256 answer always yields a strictly negative price —
the sign is passed through with no clamping, though the magnitude may
round.  (The sign conjunct also holds of the program's rounded division:
`|Number(answer)| ≥ 1` and the denominator is at most about `10 ^ 255`,
so the exact quotient's magnitude stays far above the smallest positive
double and the rounded quotient remains strictly negative.) -/
theorem c6_amended_price (answer : Int) (decimals : Nat) :
    (answer.natAbs ≤ 2 ^ 53 → priceOf answer 0 = priceSpec answer 0) ∧
    (answer < 0 → answer.natAbs ≤ 2 ^ 255 → priceOf answer decimals < 0) := by
  constructor
  · intro h
    have hn : jsNumberOfNat answer.natAbs = answer.natAbs := by
      rw [jsNumberOfNat, if_pos h]
    have hi : jsNumberOfInt answer = answer := by
      rw [jsNumberOfInt, hn]
      by_cases hneg : answer < 0
      · rw [if_pos hneg]
        omega
      · rw [if_neg hneg]
        omega
    rw [priceOf, priceSpec, hi]
  · intro hneg habs
    have h1 : 1 ≤ answer.natAbs := by omega
    have h2 : answer.natAbs < 2 ^ bitFuel := by
      calc answer.natAbs ≤ 2 ^ 255 := habs
        _ < 2 ^ bitFuel := by norm_num [bitFuel]
    have h3 : 1 ≤ jsNumberOfNat answer.natAbs := jsNumberOfNat_pos _ h1 h2
    have h4 : jsNumberOfInt answer = -(jsNumberOfNat answer.natAbs) := by
      rw [jsNumberOfInt, if_pos hneg]
    rw [priceOf, h4]
    apply div_neg_of_neg_of_pos
    · have : (1 : ℚ) ≤ (jsNumberOfNat answer.natAbs : ℚ) := by exact_mod_cast h3
      push_cast
      linarith
    · positivity

/-- Witness for the amended C6 at `answer = -5`, `decimals = 2`. -/
theorem c6_amended_price_witness :
    ((-5 : Int).natAbs ≤ 2 ^ 53 ∧ priceOf (-5) 0 = priceSpec (-5) 0) ∧
    ((-5 : Int) < 0 ∧ (-5 : Int).natAbs ≤ 2 ^ 255 ∧ priceOf (-5) 2 < 0) :=
  ⟨⟨by decide, (c6_amended_price (-5) 2).1 (by decide)⟩,
   ⟨by decide, by decide, (c6_amended_price (-5) 2).2 (by decide) (by decide)⟩⟩
